import Mathlib

/-
Verification of the arboard macOS clipboard backend
(src/src/osx_clipboard.rs together with the facade in src/src/lib.rs).

The backend is embedded shallowly: the pure content-type mapping functions
are translated directly, and the pasteboard-touching operations are modelled
as functions over explicit pasteboard snapshot states, with the native
NSPasteboard observations (pasteboardItems, dataForType, readObjectsForClasses,
writeObjects) represented as fields of those states.
-/

namespace Arboard

/-- Modelled from the spec: the canonical content-type enumeration of
common.rs (not under src/), whose variants are pinned by their uses in
src/src/osx_clipboard.rs: the closed well-known set Text, Html, Rtf, Png,
Pdf, Url plus the open Custom escape variant carrying a native identifier
string, compared by structural equality. -/
inductive ContentType where
  | Url : ContentType
  | Html : ContentType
  | Pdf : ContentType
  | Png : ContentType
  | Rtf : ContentType
  | Text : ContentType
  | Custom : String → ContentType
deriving DecidableEq

/-- Modelled from the spec: the error taxonomy of common.rs (not under src/),
whose variants are pinned by their uses in src/src/osx_clipboard.rs:
ContentNotAvailable, ConversionFailure, ClipboardOccupied, and Unknown with a
human-readable diagnostic description. -/
inductive Error where
  | ContentNotAvailable : Error
  | ConversionFailure : Error
  | ClipboardOccupied : Error
  | Unknown : String → Error
deriving DecidableEq

/-- The native identifier strings appearing in the macOS mapping table of
normalize_content_type / denormalize_ct_single. -/
def osx_mapping_table : List String :=
  ["public.file-url", "public.html", "com.adobe.pdf", "public.png",
   "public.rtf", "public.utf8-plain-text"]

/-- Embeds OSXClipboardContext::normalize_content_type: an exact string match
against the macOS table, falling back to Custom on a miss. -/
def normalize_content_type (s : String) : ContentType :=
  if s = "public.file-url" then ContentType.Url
  else if s = "public.html" then ContentType.Html
  else if s = "com.adobe.pdf" then ContentType.Pdf
  else if s = "public.png" then ContentType.Png
  else if s = "public.rtf" then ContentType.Rtf
  else if s = "public.utf8-plain-text" then ContentType.Text
  else ContentType.Custom s

/-- Embeds OSXClipboardContext::denormalize_ct_single: on macOS every
supported content type has a single system type. -/
def denormalize_ct_single : ContentType → String
  | ContentType.Url => "public.file-url"
  | ContentType.Html => "public.html"
  | ContentType.Pdf => "com.adobe.pdf"
  | ContentType.Png => "public.png"
  | ContentType.Rtf => "public.rtf"
  | ContentType.Text => "public.utf8-plain-text"
  | ContentType.Custom s => s

/-- Embeds OSXClipboardContext::denormalize_content_type: the singleton list
holding the single macOS system type. -/
def denormalize_content_type (ct : ContentType) : List String :=
  [denormalize_ct_single ct]

/-- C3: for every string s outside the macOS mapping table,
normalize_content_type returns Custom s (it is total, hence never fails), and
denormalize_content_type maps Custom s back to exactly the singleton [s]. -/
theorem normalize_custom_round_trip (s : String) (h : s ∉ osx_mapping_table) :
    normalize_content_type s = ContentType.Custom s ∧
    denormalize_content_type (ContentType.Custom s) = [s] := by
  simp only [osx_mapping_table, List.mem_cons, List.not_mem_nil, or_false,
    not_or] at h
  obtain ⟨h1, h2, h3, h4, h5, h6⟩ := h
  refine ⟨?_, rfl⟩
  simp [normalize_content_type, h1, h2, h3, h4, h5, h6]

theorem normalize_custom_round_trip_witness :
    "text/x-moz-url" ∉ osx_mapping_table ∧
    (normalize_content_type "text/x-moz-url" =
        ContentType.Custom "text/x-moz-url" ∧
      denormalize_content_type (ContentType.Custom "text/x-moz-url") =
        ["text/x-moz-url"]) :=
  ⟨by decide, normalize_custom_round_trip "text/x-moz-url" (by decide)⟩

/-- C4: for every well-known canonical type (Text, Html, Rtf, Png, Pdf, Url),
normalizing the first element of its denormalization yields the type back. -/
theorem normalize_denormalize_consistency (ct : ContentType)
    (h : ct ∈ [ContentType.Text, ContentType.Html, ContentType.Rtf,
      ContentType.Png, ContentType.Pdf, ContentType.Url]) :
    normalize_content_type ((denormalize_content_type ct).headI) = ct := by
  fin_cases h <;> decide

theorem normalize_denormalize_consistency_witness :
    ContentType.Html ∈ [ContentType.Text, ContentType.Html, ContentType.Rtf,
      ContentType.Png, ContentType.Pdf, ContentType.Url] ∧
    normalize_content_type
        ((denormalize_content_type ContentType.Html).headI) =
      ContentType.Html :=
  ⟨by decide, normalize_denormalize_consistency ContentType.Html (by decide)⟩

/-- C5: denormalize_content_type always returns a non-empty sequence, and its
first element is the single most-preferred macOS system type computed by
denormalize_ct_single. -/
theorem denormalize_nonempty (ct : ContentType) :
    1 ≤ (denormalize_content_type ct).length ∧
    (denormalize_content_type ct).headI = denormalize_ct_single ct := by
  exact ⟨by simp [denormalize_content_type], rfl⟩

/-- C10: the macOS native-to-canonical mapping is lossless: denormalizing the
normalization of any native identifier string returns exactly that string. -/
theorem denormalize_normalize_lossless (s : String) :
    denormalize_content_type (normalize_content_type s) = [s] := by
  simp only [normalize_content_type]
  split_ifs with h1 h2 h3 h4 h5 h6 <;>
    simp_all [denormalize_content_type, denormalize_ct_single]

/-- One NSPasteboardItem of the general pasteboard, observed through the
types message: the ordered list of native type identifier strings it offers,
in platform-reported order. -/
structure PasteboardItem where
  types : List String

/-- Snapshot of the general NSPasteboard as the backend observes it:
the pasteboardItems message yields none when the native call returns null
(inaccessible pasteboard) and otherwise the item list; the dataForType
message yields the byte payload stored under a native type identifier, or
none when the pasteboard holds no data for it. -/
structure Pasteboard where
  items : Option (List PasteboardItem)
  dataForType : String → Option (List Nat)

/-- Embeds OSXClipboardContext::first_item: none when pasteboardItems
returns null, otherwise the first object of the returned array (none again
when the array is empty). -/
def first_item (pb : Pasteboard) : Option PasteboardItem :=
  pb.items.bind List.head?

/-- Embeds OSXClipboardContext::get_content_types: an empty list when there
is no first item, otherwise the types of the first item, verbatim in
platform-reported order; both branches return Ok. -/
def get_content_types (pb : Pasteboard) : Except Error (List String) :=
  match first_item pb with
  | none => Except.ok []
  | some it => Except.ok it.types

/-- Embeds OSXClipboardContext::get_content_for_types. The source does not
iterate the requested priority list: after the first_item presence check it
issues exactly one dataForType probe for one NSString. The expression
computing that NSString (NSString::from_str applied to
denormalize_content_type of the whole requested slice) is ill-typed in the
source, which marks the function with a TODO comment calling it broken; the
probed string is therefore abstracted here as the parameter typ. Whatever it
is, the source computes it from the requested types alone, never from the
pasteboard state, and the overall shape is: no first item, or no data under
typ, yields ContentNotAvailable; otherwise the bytes stored under typ. -/
def get_content_for_types (typ : String) (pb : Pasteboard) :
    Except Error (List Nat) :=
  match first_item pb with
  | none => Except.error Error.ContentNotAvailable
  | some _ =>
    match pb.dataForType typ with
    | none => Except.error Error.ContentNotAvailable
    | some d => Except.ok d

/-- A pasteboard snapshot holding a single item that offers only an Rtf
representation. -/
def pbRtfOnly : Pasteboard :=
  { items := some [⟨["public.rtf"]⟩],
    dataForType := fun t => if t = "public.rtf" then some [114] else none }

/-- A pasteboard snapshot holding a single item that offers only an Html
representation. -/
def pbHtmlOnly : Pasteboard :=
  { items := some [⟨["public.html"]⟩],
    dataForType := fun t => if t = "public.html" then some [104] else none }

/-- C6: get_content_types never returns an error: for every pasteboard
snapshot it returns Ok, with the empty list exactly when the pasteboard is
empty or inaccessible (no first item), and otherwise the native
identifiers verbatim in platform-reported order. -/
theorem get_content_types_never_fails (pb : Pasteboard) :
    (∀ e : Error, get_content_types pb ≠ Except.error e) ∧
    (first_item pb = none → get_content_types pb = Except.ok []) ∧
    (∀ it : PasteboardItem, first_item pb = some it →
      get_content_types pb = Except.ok it.types) := by
  refine ⟨?_, ?_, ?_⟩
  · intro e
    unfold get_content_types
    cases h : first_item pb <;> simp
  · intro h
    unfold get_content_types
    rw [h]
  · intro it h
    unfold get_content_types
    rw [h]

/-- C1, divergence of the source from the claim: because the source probes a
single native type string computed from the requested list alone, no choice
of that string can serve the priority list [Rtf, Html, Text] on both a
pasteboard holding only an Rtf representation and a pasteboard holding only
an Html representation: at least one of the two reads, each of which the
claim requires to succeed, returns ContentNotAvailable. -/
theorem get_content_for_types_single_probe_diverges (typ : String) :
    get_content_for_types typ pbRtfOnly =
        Except.error Error.ContentNotAvailable ∨
      get_content_for_types typ pbHtmlOnly =
        Except.error Error.ContentNotAvailable := by
  by_cases h : typ = "public.rtf"
  · right
    subst h
    simp [get_content_for_types, pbHtmlOnly, first_item]
  · left
    simp [get_content_for_types, pbRtfOnly, first_item, h]

/-- An object returned by the readObjectsForClasses query for the NSImage
class: whether it is a kind of NSImage, and the bytes of its
TIFFRepresentation. -/
structure PasteboardObject where
  isImage : Bool
  tiff : List Nat

/-- The decoded canonical pixel buffer built by get_image: width, height, and
the raw RGBA8 bytes. -/
structure ImageData where
  width : Nat
  height : Nat
  bytes : List Nat

/-- Embeds OSXClipboardContext::get_image. The readObjectsForClasses query
for the NSImage class is the contents argument (none when the native call
returns null). The TIFF decoding done by the external image crate is the
decode argument, returning the dimensions and RGBA8 pixels on success and
none on a decoding error. Control flow as in the source: null or empty
contents, or a first object that is not an NSImage, yield
ContentNotAvailable; a first NSImage whose TIFF bytes fail to decode yields
ConversionFailure; otherwise the decoded image data is returned. -/
def get_image (decode : List Nat → Option (Nat × Nat × List Nat))
    (contents : Option (List PasteboardObject)) : Except Error ImageData :=
  match contents with
  | none => Except.error Error.ContentNotAvailable
  | some [] => Except.error Error.ContentNotAvailable
  | some (obj :: _) =>
    if obj.isImage then
      match decode obj.tiff with
      | some (w, h, px) => Except.ok ⟨w, h, px⟩
      | none => Except.error Error.ConversionFailure
    else
      Except.error Error.ContentNotAvailable

/-- C7: under the platform guarantee that every object answering the
NSImage-class query is an NSImage, get_image returns ContentNotAvailable
exactly when no image representation is present (query null or empty), and
ConversionFailure exactly when an image is present but its TIFF bytes do not
decode; the two failures are never conflated. -/
theorem get_image_error_discrimination
    (decode : List Nat → Option (Nat × Nat × List Nat))
    (contents : Option (List PasteboardObject))
    (hplat : ∀ l, contents = some l → ∀ o ∈ l, o.isImage = true) :
    (get_image decode contents = Except.error Error.ContentNotAvailable ↔
      contents = none ∨ contents = some []) ∧
    (get_image decode contents = Except.error Error.ConversionFailure ↔
      ∃ o l, contents = some (o :: l) ∧ decode o.tiff = none) := by
  match contents with
  | none => simp [get_image]
  | some [] => simp [get_image]
  | some (obj :: rest) =>
    have himg : obj.isImage = true :=
      hplat (obj :: rest) rfl obj (List.mem_cons_self obj rest)
    constructor
    · simp only [get_image, himg, if_true]
      cases hdec : decode obj.tiff with
      | none => simp
      | some whpx =>
        match whpx with
        | (w, h, px) => simp
    · simp only [get_image, himg, if_true]
      cases hdec : decode obj.tiff with
      | none =>
        simp only [true_iff]
        exact ⟨obj, rest, rfl, hdec⟩
      | some whpx =>
        match whpx with
        | (w, h, px) =>
          constructor
          · intro hcontra
            exact Except.noConfusion hcontra
          · intro hcontra
            obtain ⟨o, l, heq, hd⟩ := hcontra
            cases heq
            rw [hdec] at hd
            exact Option.noConfusion hd

/-- A decoder that rejects every byte sequence, for the concrete invocation
of the get_image error discrimination theorem. -/
def rejectAll : List Nat → Option (Nat × Nat × List Nat) := fun _ => none

theorem get_image_error_discrimination_witness :
    (∀ l, (some [PasteboardObject.mk true [0]] :
        Option (List PasteboardObject)) = some l →
      ∀ o ∈ l, o.isImage = true) ∧
    ((get_image rejectAll (some [PasteboardObject.mk true [0]]) =
        Except.error Error.ContentNotAvailable ↔
      (some [PasteboardObject.mk true [0]] :
          Option (List PasteboardObject)) = none ∨
        (some [PasteboardObject.mk true [0]] :
          Option (List PasteboardObject)) = some []) ∧
    (get_image rejectAll (some [PasteboardObject.mk true [0]]) =
        Except.error Error.ConversionFailure ↔
      ∃ o l, (some [PasteboardObject.mk true [0]] :
          Option (List PasteboardObject)) = some (o :: l) ∧
        rejectAll o.tiff = none)) :=
  ⟨by
    intro l hl o ho
    cases hl
    simp only [List.mem_singleton] at ho
    subst ho
    rfl,
   get_image_error_discrimination rejectAll
     (some [PasteboardObject.mk true [0]])
     (by
       intro l hl o ho
       cases hl
       simp only [List.mem_singleton] at ho
       subst ho
       rfl)⟩

/-- The general pasteboard as the text operations observe it: readResult is
what the readObjectsForClasses query for the NSString class returns, none
when the native call returns null and otherwise the list of string objects
offered by the pasteboard. -/
structure TextPasteboard where
  readResult : Option (List String)

/-- Embeds the clearContents message: afterwards the pasteboard offers no
objects. -/
def clearContents (_pb : TextPasteboard) : TextPasteboard :=
  ⟨some []⟩

/-- Embeds the writeObjects message for a list of NSString objects: the
platform either accepts the write, after which the pasteboard offers exactly
the written objects, or refuses it (the accept flag, the boolean the native
call returns) and leaves the pasteboard unchanged. -/
def writeObjects (objs : List String) (accept : Bool) (pb : TextPasteboard) :
    Bool × TextPasteboard :=
  if accept then (true, ⟨some objs⟩) else (false, pb)

/-- Embeds OSXClipboardContext::get_text: ContentNotAvailable when the
NSString read returns null or an empty array, otherwise the first string. -/
def get_text (pb : TextPasteboard) : Except Error String :=
  match pb.readResult with
  | none => Except.error Error.ContentNotAvailable
  | some strings =>
    if strings.length = 0 then Except.error Error.ContentNotAvailable
    else Except.ok strings.headI

/-- Embeds OSXClipboardContext::set_text: clearContents, then writeObjects
with the single string; Ok on success and Unknown with the diagnostic of
the source when writeObjects returns false. Returns the result paired with
the pasteboard state after the call. -/
def set_text (accept : Bool) (data : String) (pb : TextPasteboard) :
    Except Error Unit × TextPasteboard :=
  let cleared := clearContents pb
  let written := writeObjects [data] accept cleared
  if written.1 then (Except.ok (), written.2)
  else (Except.error (Error.Unknown "NSPasteboard#writeObjects: returned false"),
    written.2)

/-- C8: whenever set_text succeeds, the pasteboard holds exactly the single
written text representation, whatever it held before, and an intervening-
write-free get_text returns exactly the written string; and when set_text
does not succeed the platform write itself reported failure and the error is
the Unknown diagnostic. -/
theorem set_get_text_round_trip (accept : Bool) (s : String)
    (pb : TextPasteboard) :
    ((set_text accept s pb).1 = Except.ok () →
      (set_text accept s pb).2.readResult = some [s] ∧
      get_text (set_text accept s pb).2 = Except.ok s) ∧
    ((set_text accept s pb).1 ≠ Except.ok () →
      accept = false ∧
      (set_text accept s pb).1 =
        Except.error (Error.Unknown "NSPasteboard#writeObjects: returned false")) := by
  cases accept with
  | true =>
    refine ⟨fun _ => ⟨rfl, rfl⟩, fun hne => absurd rfl hne⟩
  | false =>
    refine ⟨fun hok => ?_, fun _ => ⟨rfl, rfl⟩⟩
    exact Except.noConfusion hok

theorem set_get_text_round_trip_witness :
    ((set_text true "Some utf8: φ" ⟨some ["old"]⟩).1 = Except.ok () →
      (set_text true "Some utf8: φ" ⟨some ["old"]⟩).2.readResult =
        some ["Some utf8: φ"] ∧
      get_text (set_text true "Some utf8: φ" ⟨some ["old"]⟩).2 =
        Except.ok "Some utf8: φ") ∧
    ((set_text true "Some utf8: φ" ⟨some ["old"]⟩).1 ≠ Except.ok () →
      true = false ∧
      (set_text true "Some utf8: φ" ⟨some ["old"]⟩).1 =
        Except.error (Error.Unknown "NSPasteboard#writeObjects: returned false")) :=
  set_get_text_round_trip true "Some utf8: φ" ⟨some ["old"]⟩

end Arboard
